import Mathlib

/-!
# tools/smp-tester.c: the scripted SMP exchange

Shallow embedding of the scripted request/response engine of
`tools/smp-tester.c` (`get_pdu`, `smp_server`, `smp_client`,
`smp_client_new_conn`) and the properties of its natural-language
specification.

Conventions of the embedding.

* A byte is a `Nat`.  A C pointer to bytes is a `Ptr`: the bytes of the object
  it points at, and the memory that follows that object (what a read past the
  end of the object finds).  A pointer/length pair of the source
  (`req`/`req_len`, `rsp`/`rsp_len`, `data`/`len`) is the `Ptr` whose object
  has that length, as `sizeof` gives it in every script of the source.
* `struct smp_server_data` / `struct smp_client_data` (array and
  `req_count`) are a `List smp_req_rsp`; `req_count` is its length.
* The only field of `struct test_data` a handler changes besides `handle` is
  `counter`; a handler is a function of the counter and returns the new one.
  The connection handle and the constant `SMP_CID` are passed through to
  `bthost_send_cid` unchanged and are not modelled.
* Lengths are `Nat`s; the `uint16_t` of the source only bounds them by 65535
  and no length is computed, so nothing wraps.
* A handler returns `none` exactly when it indexes the script array at an
  index that is not below `req_count`.
-/

namespace SmpTester

/-- Pointer to bytes: `obj` is the object pointed at, `past i` is the byte found
`i` places after the end of the object. -/
structure Ptr where
  obj : List Nat
  past : Nat → Nat

/-- The byte `p[i]`. -/
def Ptr.byte (p : Ptr) (i : Nat) : Nat :=
  if h : i < p.obj.length then p.obj[i] else p.past (i - p.obj.length)

/-- The `n` bytes found at `p`, as `memcpy`, `memcmp` and `bthost_send_cid`
read them. -/
def Ptr.read (p : Ptr) (n : Nat) : List Nat :=
  (List.range n).map p.byte

/-- The comparison loop of `memcmp` over two byte sequences of one length. -/
def memcmp_bytes : List Nat → List Nat → Int
  | x :: xs, y :: ys => if x = y then memcmp_bytes xs ys else (x : Int) - (y : Int)
  | _, _ => 0

/-- The call `memcmp(a, b, n)`. -/
def memcmp (a b : Ptr) (n : Nat) : Int :=
  memcmp_bytes (a.read n) (b.read n)

/-- The struct `smp_req_rsp`: `rsp` is `none` for a `NULL` response. -/
structure smp_req_rsp where
  req : Ptr
  rsp : Option Ptr

/-- The field `req_len`. -/
def smp_req_rsp.req_len (e : smp_req_rsp) : Nat :=
  e.req.obj.length

/-- The field `rsp_len` (0 beside a `NULL` response). -/
def smp_req_rsp.rsp_len (e : smp_req_rsp) : Nat :=
  match e.rsp with
  | some r => r.obj.length
  | none => 0

/-- The calls `tester_test_passed()` and `tester_test_failed()`. -/
inductive Verdict where
  | Passed
  | Failed
  deriving DecidableEq, Repr

/-- What one handler call does: the counter it leaves, the payloads it hands to
`bthost_send_cid` (in order), and the verdict it reports, if any. -/
structure Outcome where
  counter : Nat
  sent : List (List Nat)
  verdict : Option Verdict
  deriving DecidableEq, Repr

/-- The size in bytes of `static uint16_t buf[17]`. -/
def buf_size : Nat := 17 * 2

/-- The function `get_pdu`: for the opcodes 0x03 and 0x04 the first
`sizeof(buf)` bytes at `data` are copied into the static buffer, which is
returned; `buf_past` is the memory that follows the buffer. -/
def get_pdu (buf_past : Nat → Nat) (data : Ptr) : Ptr :=
  let opcode := data.byte 0
  if opcode = 0x03 then
    ⟨data.read buf_size, buf_past⟩
  else if opcode = 0x04 then
    ⟨data.read buf_size, buf_past⟩
  else
    data

/-- The handler `smp_server` on the inbound message `data`. -/
def smp_server (buf_past : Nat → Nat) (script : List smp_req_rsp) (counter : Nat)
    (data : Ptr) : Option Outcome :=
  let len := data.obj.length
  if counter ≥ script.length then
    some ⟨counter, [], some Verdict.Passed⟩
  else
    match script[counter]? with
    | none => none
    | some req =>
      let counter := counter + 1
      if req.req_len ≠ len then
        some ⟨counter, [], some Verdict.Failed⟩
      else
        let opcode := data.byte 0
        let mismatch : Bool :=
          if opcode = 0x03 then false
          else if opcode = 0x04 then false
          else decide (memcmp req.req data len ≠ 0)
        if mismatch then
          some ⟨counter, [], some Verdict.Failed⟩
        else
          match req.rsp with
          | some rsp =>
            let pdu := get_pdu buf_past rsp
            let sent := [pdu.read req.rsp_len]
            if script.length > counter then
              some ⟨counter, sent, none⟩
            else
              some ⟨counter, sent, some Verdict.Passed⟩
          | none => some ⟨counter, [], some Verdict.Passed⟩

/-- The part of `smp_client` from the label `next` on. -/
def smp_client_next (buf_past : Nat → Nat) (script : List smp_req_rsp) (counter : Nat) :
    Option Outcome :=
  if script.length = counter then
    some ⟨counter, [], some Verdict.Passed⟩
  else
    match script[counter]? with
    | none => none
    | some req =>
      let pdu := get_pdu buf_past req.req
      some ⟨counter, [pdu.read req.req_len], none⟩

/-- The handler `smp_client` on the inbound message `data`. -/
def smp_client (buf_past : Nat → Nat) (script : List smp_req_rsp) (counter : Nat)
    (data : Ptr) : Option Outcome :=
  let len := data.obj.length
  if counter ≥ script.length then
    some ⟨counter, [], some Verdict.Passed⟩
  else
    match script[counter]? with
    | none => none
    | some req =>
      let counter := counter + 1
      match req.rsp with
      | none => smp_client_next buf_past script counter
      | some rsp =>
        if req.rsp_len ≠ len then
          some ⟨counter, [], some Verdict.Failed⟩
        else
          let opcode := data.byte 0
          let mismatch : Bool :=
            if opcode = 0x03 then false
            else if opcode = 0x04 then false
            else decide (memcmp rsp data len ≠ 0)
          if mismatch then
            some ⟨counter, [], some Verdict.Failed⟩
          else
            smp_client_next buf_past script counter

/-- The connect callback `smp_client_new_conn`. -/
def smp_client_new_conn (buf_past : Nat → Nat) (script : List smp_req_rsp) (counter : Nat) :
    Option Outcome :=
  if script.length = counter then
    some ⟨counter, [], none⟩
  else
    match script[counter]? with
    | none => none
    | some req =>
      let pdu := get_pdu buf_past req.req
      some ⟨counter, [pdu.read req.req_len], none⟩

/-- Deliver the messages `msgs` to the handler `h` one after another, each call
starting from the counter the previous one left; the outcomes of the calls in
order. -/
def feed (h : Nat → Ptr → Option Outcome) : Nat → List Ptr → Option (List Outcome)
  | _, [] => some []
  | counter, m :: ms =>
    match h counter m with
    | none => none
    | some o =>
      match feed h o.counter ms with
      | none => none
      | some os => some (o :: os)

/-- All payloads sent over a run, in order. -/
def transmissions (os : List Outcome) : List (List Nat) :=
  (os.map Outcome.sent).flatten

/-- All verdicts reported over a run, in order. -/
def reports (os : List Outcome) : List Verdict :=
  os.filterMap Outcome.verdict

/-! ## The scripts of the source -/

/-- A static array of the source; the memory after it is taken to be zero. -/
def static_array (bytes : List Nat) : Ptr :=
  ⟨bytes, fun _ => 0⟩

/-- An inbound message holding `bytes`; the memory after it is taken to be zero. -/
def message (bytes : List Nat) : Ptr :=
  ⟨bytes, fun _ => 0⟩

def smp_nval_req_1 : List Nat := [0x0b, 0x00]

def smp_nval_req_1_rsp : List Nat := [0x05, 0x07]

def smp_basic_req_1 : List Nat := [0x01, 0x03, 0x00, 0x01, 0x10, 0x00, 0x01]

def smp_basic_req_1_rsp : List Nat := [0x02, 0x03, 0x00, 0x01, 0x10, 0x00, 0x01]

def smp_confirm_req_1 : List Nat := 0x03 :: List.replicate 16 0

def smp_random_req_1 : List Nat := 0x04 :: List.replicate 16 0

def smp_nval_req_2 : List Nat := 0x01 :: List.replicate 6 0

def smp_nval_req_2_rsp : List Nat := [0x05, 0x06]

def nval_req_1 : List smp_req_rsp :=
  [⟨static_array smp_nval_req_1, some (static_array smp_nval_req_1_rsp)⟩]

def srv_nval_req_1 : List smp_req_rsp :=
  [⟨static_array smp_nval_req_2, some (static_array smp_nval_req_2_rsp)⟩]

def srv_basic_req_1 : List smp_req_rsp :=
  [⟨static_array smp_basic_req_1, some (static_array smp_basic_req_1_rsp)⟩,
   ⟨static_array smp_confirm_req_1, some (static_array smp_confirm_req_1)⟩,
   ⟨static_array smp_random_req_1, none⟩]

def cli_basic_req_1 : List smp_req_rsp :=
  [⟨static_array smp_basic_req_1, some (static_array smp_basic_req_1_rsp)⟩,
   ⟨static_array smp_confirm_req_1, some (static_array smp_confirm_req_1)⟩]

/-! ## Further scripts -/

/-- A payload of 35 bytes that begins with the Pairing Confirm opcode and ends in
0x01: one byte longer than the buffer of `get_pdu`. -/
def long_confirm : List Nat := 0x03 :: List.replicate 33 0 ++ [0x01]

/-- A responder script whose only response is `long_confirm`. -/
def long_rsp_script : List smp_req_rsp :=
  [⟨static_array smp_nval_req_1, some (static_array long_confirm)⟩]

/-- An initiator script whose first request is `long_confirm`. -/
def long_req_script : List smp_req_rsp :=
  [⟨static_array long_confirm, some (static_array smp_nval_req_1_rsp)⟩]

/-- An initiator script whose first round expects no reply and whose second
request is `long_confirm`. -/
def silent_then_long_script : List smp_req_rsp :=
  [⟨static_array smp_nval_req_1, none⟩, ⟨static_array long_confirm, none⟩]

/-! ## Predicates and expected outcomes used in the statements -/

/-- The payload fits the buffer of `get_pdu` when it has to go through it. -/
def fits_buf (p : Ptr) : Prop :=
  (p.byte 0 = 0x03 ∨ p.byte 0 = 0x04) → p.obj.length ≤ buf_size

instance (p : Ptr) : Decidable (fits_buf p) := by
  unfold fits_buf
  infer_instance

/-- The check both message handlers make of an inbound message `data` against the
expected bytes passes: the lengths agree and, unless `data` begins with 0x03 or
0x04, the bytes agree. -/
def accepts (expected data : Ptr) : Prop :=
  expected.obj.length = data.obj.length ∧
    (data.byte 0 = 0x03 ∨ data.byte 0 = 0x04 ∨ expected.obj = data.obj)

/-- What `smp_server` does in a round whose inbound message passed the check. -/
def server_reply (buf_past : Nat → Nat) (script : List smp_req_rsp) (k : Nat)
    (e : smp_req_rsp) : Outcome :=
  match e.rsp with
  | some r =>
    ⟨k + 1, [(get_pdu buf_past r).read r.obj.length],
      if script.length > k + 1 then none else some Verdict.Passed⟩
  | none => ⟨k + 1, [], some Verdict.Passed⟩

/-! ## Memory reads, `memcmp` and `get_pdu` -/

theorem Ptr.read_length (p : Ptr) (n : Nat) : (p.read n).length = n := by
  simp [Ptr.read]

theorem Ptr.getElem_read (p : Ptr) (n i : Nat) (h : i < (p.read n).length) :
    (p.read n)[i] = p.byte i := by
  simp [Ptr.read]

theorem Ptr.byte_of_lt (p : Ptr) (i : Nat) (h : i < p.obj.length) : p.byte i = p.obj[i] := by
  simp [Ptr.byte, h]

theorem Ptr.read_self (p : Ptr) : p.read p.obj.length = p.obj := by
  apply List.ext_getElem
  · simp [Ptr.read]
  · intro i h1 h2
    rw [Ptr.getElem_read, Ptr.byte_of_lt]

theorem Ptr.byte_zero_of_head (p : Ptr) (a : Nat) (h : p.obj.head? = some a) : p.byte 0 = a := by
  cases hp : p.obj with
  | nil => simp [hp] at h
  | cons x xs =>
    simp [hp] at h
    simp [Ptr.byte, hp, h]

theorem memcmp_bytes_eq_zero_iff (xs ys : List Nat) (h : xs.length = ys.length) :
    memcmp_bytes xs ys = 0 ↔ xs = ys := by
  induction xs generalizing ys with
  | nil =>
    cases ys with
    | nil => simp [memcmp_bytes]
    | cons y ys => simp at h
  | cons x xs ih =>
    cases ys with
    | nil => simp at h
    | cons y ys =>
      simp only [List.length_cons, Nat.add_right_cancel_iff] at h
      by_cases hxy : x = y
      · simp [memcmp_bytes, hxy, ih ys h]
      · have : (x : Int) - (y : Int) ≠ 0 := by omega
        simp [memcmp_bytes, hxy, this]

theorem memcmp_eq_zero_iff (a b : Ptr) (h : a.obj.length = b.obj.length) :
    memcmp a b b.obj.length = 0 ↔ a.obj = b.obj := by
  unfold memcmp
  rw [memcmp_bytes_eq_zero_iff _ _ (by simp [Ptr.read_length])]
  rw [Ptr.read_self b, ← h, Ptr.read_self a]

theorem get_pdu_read_le (buf_past : Nat → Nat) (p : Ptr) (n : Nat) (h : n ≤ buf_size) :
    (get_pdu buf_past p).read n = p.read n := by
  have key : (Ptr.mk (p.read buf_size) buf_past).read n = p.read n := by
    apply List.ext_getElem
    · simp [Ptr.read_length]
    · intro i h1 h2
      have hi : i < n := by simpa [Ptr.read_length] using h1
      rw [Ptr.getElem_read, Ptr.getElem_read, Ptr.byte_of_lt _ _ (by simp [Ptr.read_length]; omega),
        Ptr.getElem_read]
  unfold get_pdu
  simp only
  split
  · exact key
  · split
    · exact key
    · rfl

theorem get_pdu_other (buf_past : Nat → Nat) (p : Ptr) (h3 : p.byte 0 ≠ 0x03)
    (h4 : p.byte 0 ≠ 0x04) : get_pdu buf_past p = p := by
  simp [get_pdu, h3, h4]

theorem get_pdu_read_self (buf_past : Nat → Nat) (p : Ptr) (h : fits_buf p) :
    (get_pdu buf_past p).read p.obj.length = p.obj := by
  by_cases hop : p.byte 0 = 0x03 ∨ p.byte 0 = 0x04
  · rw [get_pdu_read_le _ _ _ (h hop), Ptr.read_self]
  · rw [get_pdu_other _ _ (fun h3 => hop (Or.inl h3)) (fun h4 => hop (Or.inr h4)), Ptr.read_self]

/-- Past the buffer: when `get_pdu` returns its buffer, byte `i` of what is read at the
returned pointer is, from `sizeof(buf)` on, the memory that follows the buffer and not
byte `i` of the payload. -/
theorem get_pdu_read_past_buf (buf_past : Nat → Nat) (p : Ptr)
    (hop : p.byte 0 = 0x03 ∨ p.byte 0 = 0x04) (n i : Nat) (hi : buf_size ≤ i) (hin : i < n) :
    ((get_pdu buf_past p).read n)[i]? = some (buf_past (i - buf_size)) := by
  have hg : get_pdu buf_past p = ⟨p.read buf_size, buf_past⟩ := by
    unfold get_pdu
    rcases hop with h | h
    · simp [h]
    · simp [h]
  have hlen : i < ((get_pdu buf_past p).read n).length := by
    rw [Ptr.read_length]
    exact hin
  rw [List.getElem?_eq_getElem hlen, Ptr.getElem_read, hg]
  simp [Ptr.byte, Ptr.read_length, Nat.not_lt.mpr hi]

/-! ## One handler call -/

theorem lt_length_of_lookup {α : Type} {S : List α} {k : Nat} {e : α} (hk : S[k]? = some e) :
    k < S.length := by
  by_contra h
  rw [List.getElem?_eq_none (by omega)] at hk
  exact Option.noConfusion hk

theorem smp_server_done (bp : Nat → Nat) (S : List smp_req_rsp) (k : Nat) (m : Ptr)
    (hk : S.length ≤ k) : smp_server bp S k m = some ⟨k, [], some Verdict.Passed⟩ := by
  simp [smp_server, hk]

theorem smp_server_reject (bp : Nat → Nat) (S : List smp_req_rsp) (k : Nat) (m : Ptr)
    (e : smp_req_rsp) (hk : S[k]? = some e) (ha : ¬ accepts e.req m) :
    smp_server bp S k m = some ⟨k + 1, [], some Verdict.Failed⟩ := by
  have hlt := lt_length_of_lookup hk
  unfold smp_server
  simp only [ge_iff_le, Nat.not_le.mpr hlt, if_false, hk]
  by_cases hl : e.req.obj.length = m.obj.length
  · have hn : ¬ (m.byte 0 = 0x03 ∨ m.byte 0 = 0x04 ∨ e.req.obj = m.obj) := fun h => ha ⟨hl, h⟩
    have h3 : m.byte 0 ≠ 0x03 := fun h => hn (Or.inl h)
    have h4 : m.byte 0 ≠ 0x04 := fun h => hn (Or.inr (Or.inl h))
    have hne : e.req.obj ≠ m.obj := fun h => hn (Or.inr (Or.inr h))
    have hc : memcmp e.req m m.obj.length ≠ 0 := fun h => hne ((memcmp_eq_zero_iff _ _ hl).mp h)
    simp [smp_req_rsp.req_len, hl, h3, h4, hc]
  · simp [smp_req_rsp.req_len, hl]

theorem smp_server_accept (bp : Nat → Nat) (S : List smp_req_rsp) (k : Nat) (m : Ptr)
    (e : smp_req_rsp) (hk : S[k]? = some e) (ha : accepts e.req m) :
    smp_server bp S k m = some (server_reply bp S k e) := by
  have hlt := lt_length_of_lookup hk
  obtain ⟨hl, hc⟩ := ha
  have hmm : (if m.byte 0 = 0x03 then false else if m.byte 0 = 0x04 then false
      else decide (memcmp e.req m m.obj.length ≠ 0)) = false := by
    by_cases h3 : m.byte 0 = 0x03
    · simp [h3]
    · by_cases h4 : m.byte 0 = 0x04
      · simp [h4]
      · have heq : e.req.obj = m.obj := by
          rcases hc with h | h | h
          · exact absurd h h3
          · exact absurd h h4
          · exact h
        simp [h3, h4, (memcmp_eq_zero_iff _ _ hl).mpr heq]
  unfold smp_server
  simp only [ge_iff_le, Nat.not_le.mpr hlt, if_false, hk, smp_req_rsp.req_len, hl, ne_eq,
    not_true_eq_false, hmm, server_reply, smp_req_rsp.rsp_len]
  cases hr : e.rsp with
  | none => simp
  | some r =>
    by_cases hgt : S.length > k + 1
    · simp [hgt]
    · simp [hgt]

theorem smp_client_next_last (bp : Nat → Nat) (S : List smp_req_rsp) (k : Nat)
    (hk : S.length = k) : smp_client_next bp S k = some ⟨k, [], some Verdict.Passed⟩ := by
  simp [smp_client_next, hk]

theorem smp_client_next_more (bp : Nat → Nat) (S : List smp_req_rsp) (k : Nat)
    (e : smp_req_rsp) (hk : S[k]? = some e) :
    smp_client_next bp S k = some ⟨k, [(get_pdu bp e.req).read e.req.obj.length], none⟩ := by
  have hlt := lt_length_of_lookup hk
  have hne : S.length ≠ k := by omega
  simp [smp_client_next, hne, hk, smp_req_rsp.req_len]

theorem smp_client_new_conn_last (bp : Nat → Nat) (S : List smp_req_rsp) (k : Nat)
    (hk : S.length = k) : smp_client_new_conn bp S k = some ⟨k, [], none⟩ := by
  simp [smp_client_new_conn, hk]

theorem smp_client_new_conn_more (bp : Nat → Nat) (S : List smp_req_rsp) (k : Nat)
    (e : smp_req_rsp) (hk : S[k]? = some e) :
    smp_client_new_conn bp S k = some ⟨k, [(get_pdu bp e.req).read e.req.obj.length], none⟩ := by
  have hlt := lt_length_of_lookup hk
  have hne : S.length ≠ k := by omega
  simp [smp_client_new_conn, hne, hk, smp_req_rsp.req_len]

theorem smp_client_done (bp : Nat → Nat) (S : List smp_req_rsp) (k : Nat) (m : Ptr)
    (hk : S.length ≤ k) : smp_client bp S k m = some ⟨k, [], some Verdict.Passed⟩ := by
  simp [smp_client, hk]

theorem smp_client_unchecked (bp : Nat → Nat) (S : List smp_req_rsp) (k : Nat) (m : Ptr)
    (e : smp_req_rsp) (hk : S[k]? = some e) (hr : e.rsp = none) :
    smp_client bp S k m = smp_client_next bp S (k + 1) := by
  have hlt := lt_length_of_lookup hk
  unfold smp_client
  simp only [ge_iff_le, Nat.not_le.mpr hlt, if_false, hk, hr]

theorem smp_client_reject (bp : Nat → Nat) (S : List smp_req_rsp) (k : Nat) (m : Ptr)
    (e : smp_req_rsp) (r : Ptr) (hk : S[k]? = some e) (hr : e.rsp = some r)
    (ha : ¬ accepts r m) :
    smp_client bp S k m = some ⟨k + 1, [], some Verdict.Failed⟩ := by
  have hlt := lt_length_of_lookup hk
  unfold smp_client
  simp only [ge_iff_le, Nat.not_le.mpr hlt, if_false, hk, hr, smp_req_rsp.rsp_len]
  by_cases hl : r.obj.length = m.obj.length
  · have hn : ¬ (m.byte 0 = 0x03 ∨ m.byte 0 = 0x04 ∨ r.obj = m.obj) := fun h => ha ⟨hl, h⟩
    have h3 : m.byte 0 ≠ 0x03 := fun h => hn (Or.inl h)
    have h4 : m.byte 0 ≠ 0x04 := fun h => hn (Or.inr (Or.inl h))
    have hne : r.obj ≠ m.obj := fun h => hn (Or.inr (Or.inr h))
    have hc : memcmp r m m.obj.length ≠ 0 := fun h => hne ((memcmp_eq_zero_iff _ _ hl).mp h)
    simp [hl, h3, h4, hc]
  · simp [hl]

theorem smp_client_accept (bp : Nat → Nat) (S : List smp_req_rsp) (k : Nat) (m : Ptr)
    (e : smp_req_rsp) (r : Ptr) (hk : S[k]? = some e) (hr : e.rsp = some r)
    (ha : accepts r m) :
    smp_client bp S k m = smp_client_next bp S (k + 1) := by
  have hlt := lt_length_of_lookup hk
  obtain ⟨hl, hc⟩ := ha
  have hmm : (if m.byte 0 = 0x03 then false else if m.byte 0 = 0x04 then false
      else decide (memcmp r m m.obj.length ≠ 0)) = false := by
    by_cases h3 : m.byte 0 = 0x03
    · simp [h3]
    · by_cases h4 : m.byte 0 = 0x04
      · simp [h4]
      · have heq : r.obj = m.obj := by
          rcases hc with h | h | h
          · exact absurd h h3
          · exact absurd h h4
          · exact h
        simp [h3, h4, (memcmp_eq_zero_iff _ _ hl).mpr heq]
  unfold smp_client
  simp only [ge_iff_le, Nat.not_le.mpr hlt, if_false, hk, hr, smp_req_rsp.rsp_len, hl, ne_eq,
    not_true_eq_false, hmm]
  simp

theorem accepts_of_same_bytes (expected data : Ptr) (h : data.obj = expected.obj) :
    accepts expected data :=
  ⟨by rw [h], Or.inr (Or.inr h.symm)⟩

theorem accepts_of_exempt (expected data : Ptr) (hl : data.obj.length = expected.obj.length)
    (h : data.obj.head? = some 0x03 ∨ data.obj.head? = some 0x04) : accepts expected data := by
  refine ⟨hl.symm, ?_⟩
  rcases h with h | h
  · exact Or.inl (Ptr.byte_zero_of_head _ _ h)
  · exact Or.inr (Or.inl (Ptr.byte_zero_of_head _ _ h))

theorem not_accepts_of_length (expected data : Ptr) (hl : data.obj.length ≠ expected.obj.length) :
    ¬ accepts expected data :=
  fun h => hl h.1.symm

theorem not_accepts_of_differs (expected data : Ptr) (h3 : data.obj.head? ≠ some 0x03)
    (h4 : data.obj.head? ≠ some 0x04) (hne : data.obj ≠ expected.obj) :
    ¬ accepts expected data := by
  rintro ⟨hl, hc⟩
  cases hd : data.obj with
  | nil =>
    apply hne
    rw [hd] at hl
    rw [hd]
    exact (List.length_eq_zero.mp hl).symm
  | cons a t =>
    have hb : data.byte 0 = a := Ptr.byte_zero_of_head _ _ (by simp [hd])
    rw [hd] at h3 h4
    simp only [List.head?_cons, ne_eq, Option.some.injEq] at h3 h4
    rcases hc with h | h | h
    · exact h3 (hb ▸ h)
    · exact h4 (hb ▸ h)
    · exact hne h.symm

theorem server_reply_counter (bp : Nat → Nat) (S : List smp_req_rsp) (k : Nat) (e : smp_req_rsp) :
    (server_reply bp S k e).counter = k + 1 := by
  unfold server_reply
  cases e.rsp <;> rfl

theorem server_reply_verdict (bp : Nat → Nat) (S : List smp_req_rsp) (k : Nat) (e : smp_req_rsp) :
    (server_reply bp S k e).verdict ≠ some Verdict.Failed := by
  unfold server_reply
  cases e.rsp with
  | none => simp
  | some r =>
    by_cases h : S.length > k + 1 <;> simp [h]

/-- C6: in every round `k` of `smp_server`, an inbound message whose length differs
from the length of the request of entry `k` makes the call report Failed and send
nothing, whatever the bytes of the message and whether or not the entry has a
response. -/
theorem smp_server_length_mismatch (bp : Nat → Nat) (S : List smp_req_rsp) (k : Nat)
    (hk : k < S.length) (p : Ptr) (hl : p.obj.length ≠ S[k].req.obj.length) :
    smp_server bp S k p = some ⟨k + 1, [], some Verdict.Failed⟩ :=
  smp_server_reject bp S k p S[k] (List.getElem?_eq_getElem hk)
    (not_accepts_of_length _ _ hl)

/-- Witness of C6: a six-byte message in the first round of `cli_basic_req_1`, whose
request has seven bytes. -/
theorem smp_server_length_mismatch_witness :
    0 < cli_basic_req_1.length ∧
    (message [0x01, 0x03, 0x00, 0x01, 0x10, 0x00]).obj.length
      ≠ (cli_basic_req_1.get ⟨0, by decide⟩).req.obj.length ∧
    smp_server (fun _ => 0) cli_basic_req_1 0 (message [0x01, 0x03, 0x00, 0x01, 0x10, 0x00])
      = some ⟨1, [], some Verdict.Failed⟩ :=
  ⟨by decide, by decide,
    smp_server_length_mismatch (fun _ => 0) cli_basic_req_1 0 (by decide)
      (message [0x01, 0x03, 0x00, 0x01, 0x10, 0x00]) (by decide)⟩

/-- C5: in every round `k` of `smp_server`, two inbound messages that both begin with
0x03, or both with 0x04, and both have the length of the request of entry `k`, get
the same outcome (counter, transmission, verdict), which is in round `k + 1` and is
not Failed; and every inbound message of another length is answered by Failed,
whatever its opcode. -/
theorem smp_server_content_insensitive (bp : Nat → Nat) (S : List smp_req_rsp) (k : Nat)
    (hk : k < S.length) :
    (∀ p q : Ptr,
      (p.obj.head? = some 0x03 ∧ q.obj.head? = some 0x03) ∨
        (p.obj.head? = some 0x04 ∧ q.obj.head? = some 0x04) →
      p.obj.length = S[k].req.obj.length → q.obj.length = S[k].req.obj.length →
      ∃ o : Outcome, smp_server bp S k p = some o ∧ smp_server bp S k q = some o ∧
        o.counter = k + 1 ∧ o.verdict ≠ some Verdict.Failed) ∧
    (∀ p : Ptr, p.obj.length ≠ S[k].req.obj.length →
      ∃ o : Outcome, smp_server bp S k p = some o ∧ o.sent = [] ∧
        o.verdict = some Verdict.Failed) := by
  have hlook : S[k]? = some S[k] := List.getElem?_eq_getElem hk
  constructor
  · intro p q hop hp hq
    have hpa : accepts S[k].req p := by
      apply accepts_of_exempt _ _ hp
      rcases hop with h | h
      · exact Or.inl h.1
      · exact Or.inr h.1
    have hqa : accepts S[k].req q := by
      apply accepts_of_exempt _ _ hq
      rcases hop with h | h
      · exact Or.inl h.2
      · exact Or.inr h.2
    exact ⟨server_reply bp S k S[k], smp_server_accept bp S k p _ hlook hpa,
      smp_server_accept bp S k q _ hlook hqa, server_reply_counter bp S k _,
      server_reply_verdict bp S k _⟩
  · intro p hp
    exact ⟨_, smp_server_reject bp S k p _ hlook (not_accepts_of_length _ _ hp), rfl, rfl⟩

/-- Witness of C5: the second round of `cli_basic_req_1` expects `smp_confirm_req_1`;
two other 17-byte messages that begin with 0x03 get one outcome, a 16-byte one Failed. -/
theorem smp_server_content_insensitive_witness :
    1 < cli_basic_req_1.length ∧
    smp_server (fun _ => 0) cli_basic_req_1 1 (message (0x03 :: List.replicate 16 0xaa))
      = smp_server (fun _ => 0) cli_basic_req_1 1 (message (0x03 :: List.replicate 16 0x55)) ∧
    (∃ o : Outcome,
      smp_server (fun _ => 0) cli_basic_req_1 1 (message (0x03 :: List.replicate 15 0xaa))
        = some o ∧ o.sent = [] ∧ o.verdict = some Verdict.Failed) := by
  have h := smp_server_content_insensitive (fun _ => 0) cli_basic_req_1 1 (by decide)
  refine ⟨by decide, ?_, ?_⟩
  · obtain ⟨o, h1, h2, _⟩ := h.1 (message (0x03 :: List.replicate 16 0xaa))
      (message (0x03 :: List.replicate 16 0x55)) (Or.inl ⟨rfl, rfl⟩) (by decide) (by decide)
    rw [h1, h2]
  · exact h.2 (message (0x03 :: List.replicate 15 0xaa)) (by decide)

/-- C4, the claim as stated fails: the first entry of `cli_basic_req_1` asks for
`smp_basic_req_1`, which begins with 0x01, yet `smp_server` accepts seven other
bytes that begin with 0x03 and answers them. -/
theorem smp_server_exact_match_refuted :
    (cli_basic_req_1.get ⟨0, by decide⟩).req.obj.head? ≠ some 0x03 ∧
    (cli_basic_req_1.get ⟨0, by decide⟩).req.obj.head? ≠ some 0x04 ∧
    (message [0x03, 0x00, 0x00, 0x00, 0x00, 0x00, 0x00]).obj
      ≠ (cli_basic_req_1.get ⟨0, by decide⟩).req.obj ∧
    smp_server (fun _ => 0) cli_basic_req_1 0
        (message [0x03, 0x00, 0x00, 0x00, 0x00, 0x00, 0x00])
      = some ⟨1, [smp_basic_req_1_rsp], none⟩ := by
  decide

/-- C4 as amended: in every round `k` of `smp_server`, an inbound message that does
not itself begin with 0x03 or 0x04 is answered by Failed exactly when its bytes
differ from the request of entry `k` (whatever opcode that request begins with);
so among such messages only the request itself is accepted. -/
theorem smp_server_exact_match (bp : Nat → Nat) (S : List smp_req_rsp) (k : Nat)
    (hk : k < S.length) (p : Ptr) (h3 : p.obj.head? ≠ some 0x03)
    (h4 : p.obj.head? ≠ some 0x04) :
    (p.obj ≠ S[k].req.obj → smp_server bp S k p = some ⟨k + 1, [], some Verdict.Failed⟩) ∧
    (p.obj = S[k].req.obj → ∃ o : Outcome, smp_server bp S k p = some o ∧
      o.verdict ≠ some Verdict.Failed) := by
  have hlook : S[k]? = some S[k] := List.getElem?_eq_getElem hk
  constructor
  · intro hne
    exact smp_server_reject bp S k p _ hlook (not_accepts_of_differs _ _ h3 h4 hne)
  · intro he
    exact ⟨_, smp_server_accept bp S k p _ hlook (accepts_of_same_bytes _ _ he),
      server_reply_verdict bp S k _⟩

/-- Witness of C4 as amended: the Pairing Request of `cli_basic_req_1` with its last
byte changed from 0x01 to 0x02. -/
theorem smp_server_exact_match_witness :
    0 < cli_basic_req_1.length ∧
    (message [0x01, 0x03, 0x00, 0x01, 0x10, 0x00, 0x02]).obj.head? ≠ some 0x03 ∧
    (message [0x01, 0x03, 0x00, 0x01, 0x10, 0x00, 0x02]).obj.head? ≠ some 0x04 ∧
    (message [0x01, 0x03, 0x00, 0x01, 0x10, 0x00, 0x02]).obj
      ≠ (cli_basic_req_1.get ⟨0, by decide⟩).req.obj ∧
    smp_server (fun _ => 0) cli_basic_req_1 0
        (message [0x01, 0x03, 0x00, 0x01, 0x10, 0x00, 0x02])
      = some ⟨1, [], some Verdict.Failed⟩ :=
  ⟨by decide, by decide, by decide, by decide,
    (smp_server_exact_match (fun _ => 0) cli_basic_req_1 0 (by decide)
      (message [0x01, 0x03, 0x00, 0x01, 0x10, 0x00, 0x02]) (by decide) (by decide)).1
      (by decide)⟩

theorem smp_client_next_counter (bp : Nat → Nat) (S : List smp_req_rsp) (j : Nat)
    (hj : j ≤ S.length) :
    ∃ o : Outcome, smp_client_next bp S j = some o ∧ o.counter = j ∧
      o.verdict ≠ some Verdict.Failed := by
  by_cases h : S.length = j
  · exact ⟨_, smp_client_next_last bp S j h, rfl, by simp⟩
  · have hlt : j < S.length := by omega
    exact ⟨_, smp_client_next_more bp S j S[j] (List.getElem?_eq_getElem hlt), rfl, by simp⟩

theorem smp_server_round (bp : Nat → Nat) (S : List smp_req_rsp) (k : Nat) (hk : k < S.length)
    (p : Ptr) : ∃ o : Outcome, smp_server bp S k p = some o ∧ o.counter = k + 1 := by
  have hlook : S[k]? = some S[k] := List.getElem?_eq_getElem hk
  by_cases ha : accepts S[k].req p
  · exact ⟨_, smp_server_accept bp S k p _ hlook ha, server_reply_counter bp S k _⟩
  · exact ⟨_, smp_server_reject bp S k p _ hlook ha, rfl⟩

theorem smp_client_round (bp : Nat → Nat) (S : List smp_req_rsp) (k : Nat) (hk : k < S.length)
    (p : Ptr) : ∃ o : Outcome, smp_client bp S k p = some o ∧ o.counter = k + 1 := by
  have hlook : S[k]? = some S[k] := List.getElem?_eq_getElem hk
  obtain ⟨o, ho, hc, _⟩ := smp_client_next_counter bp S (k + 1) hk
  cases hr : S[k].rsp with
  | none => exact ⟨o, by rw [smp_client_unchecked bp S k p _ hlook hr, ho], hc⟩
  | some r =>
    by_cases ha : accepts r p
    · exact ⟨o, by rw [smp_client_accept bp S k p _ r hlook hr ha, ho], hc⟩
    · exact ⟨_, smp_client_reject bp S k p _ r hlook hr ha, rfl⟩

theorem smp_client_new_conn_counter (bp : Nat → Nat) (S : List smp_req_rsp) (k : Nat)
    (hk : k ≤ S.length) :
    ∃ o : Outcome, smp_client_new_conn bp S k = some o ∧ o.counter = k ∧ o.verdict = none := by
  by_cases h : S.length = k
  · exact ⟨_, smp_client_new_conn_last bp S k h, rfl, rfl⟩
  · have hlt : k < S.length := by omega
    exact ⟨_, smp_client_new_conn_more bp S k S[k] (List.getElem?_eq_getElem hlt), rfl, rfl⟩

/-- C8: from every counter `k` with `k ≤ len(S)`, a call of `smp_server` or
`smp_client` on any inbound message, and a call of `smp_client_new_conn`, leaves a
counter `c` with `k ≤ c ≤ k + 1` and `c ≤ len(S)`; in a round (`k < len(S)`) the two
message handlers leave exactly `k + 1`, in particular when the message passed the
check, and `smp_client_new_conn` leaves `k`. -/
theorem position_invariant (bp : Nat → Nat) (S : List smp_req_rsp) (k : Nat)
    (hk : k ≤ S.length) (p : Ptr) :
    (∃ o : Outcome, smp_server bp S k p = some o ∧ k ≤ o.counter ∧ o.counter ≤ k + 1 ∧
      o.counter ≤ S.length ∧ (k < S.length → o.counter = k + 1)) ∧
    (∃ o : Outcome, smp_client bp S k p = some o ∧ k ≤ o.counter ∧ o.counter ≤ k + 1 ∧
      o.counter ≤ S.length ∧ (k < S.length → o.counter = k + 1)) ∧
    (∃ o : Outcome, smp_client_new_conn bp S k = some o ∧ o.counter = k) := by
  refine ⟨?_, ?_, ?_⟩
  · by_cases hlt : k < S.length
    · obtain ⟨o, ho, hc⟩ := smp_server_round bp S k hlt p
      exact ⟨o, ho, by omega, by omega, by omega, fun _ => hc⟩
    · refine ⟨_, smp_server_done bp S k p (by omega), ?_, ?_, ?_, ?_⟩
      · exact Nat.le_refl k
      · exact Nat.le_succ k
      · exact hk
      · intro h
        exact absurd h hlt
  · by_cases hlt : k < S.length
    · obtain ⟨o, ho, hc⟩ := smp_client_round bp S k hlt p
      exact ⟨o, ho, by omega, by omega, by omega, fun _ => hc⟩
    · refine ⟨_, smp_client_done bp S k p (by omega), ?_, ?_, ?_, ?_⟩
      · exact Nat.le_refl k
      · exact Nat.le_succ k
      · exact hk
      · intro h
        exact absurd h hlt
  · obtain ⟨o, ho, hc, _⟩ := smp_client_new_conn_counter bp S k hk
    exact ⟨o, ho, hc⟩

/-- Witness of C8: the second round of `srv_basic_req_1`, on a one-byte message. -/
theorem position_invariant_witness :
    1 ≤ srv_basic_req_1.length ∧
    (∃ o : Outcome, smp_client (fun _ => 0) srv_basic_req_1 1 (message [0xff]) = some o ∧
      1 ≤ o.counter ∧ o.counter ≤ 1 + 1 ∧ o.counter ≤ srv_basic_req_1.length ∧
      o.counter = 1 + 1) := by
  obtain ⟨o, ho, h1, h2, h3, h4⟩ :=
    (position_invariant (fun _ => 0) srv_basic_req_1 1 (by decide) (message [0xff])).2.1
  exact ⟨by decide, o, ho, h1, h2, h3, h4 (by decide)⟩

/-- C9: from every counter `k` with `k ≤ len(S)` no handler reads the script array at
an index that is not below `len(S)`: the lookup of the entry by `smp_server`, the
lookup of the entry by `smp_client`, the lookup of the next entry after the label
`next` of `smp_client` (at the counter `j` it has reached, guarded by
`req_count == counter` alone), and the lookup by `smp_client_new_conn` all succeed. -/
theorem out_of_range_unreachable (bp : Nat → Nat) (S : List smp_req_rsp) (k : Nat)
    (hk : k ≤ S.length) (p : Ptr) :
    (smp_server bp S k p).isSome = true ∧
    (smp_client bp S k p).isSome = true ∧
    (k < S.length → (smp_client_next bp S (k + 1)).isSome = true) ∧
    (smp_client_new_conn bp S k).isSome = true := by
  obtain ⟨o3, h3, _⟩ := smp_client_new_conn_counter bp S k hk
  have hnext : k < S.length → (smp_client_next bp S (k + 1)).isSome = true := by
    intro hlt
    obtain ⟨o, ho, _⟩ := smp_client_next_counter bp S (k + 1) hlt
    rw [ho]
    rfl
  by_cases hlt : k < S.length
  · obtain ⟨o1, h1, _⟩ := smp_server_round bp S k hlt p
    obtain ⟨o2, h2, _⟩ := smp_client_round bp S k hlt p
    exact ⟨by rw [h1]; rfl, by rw [h2]; rfl, hnext, by rw [h3]; rfl⟩
  · have hge : S.length ≤ k := by omega
    exact ⟨by rw [smp_server_done bp S k p hge]; rfl, by rw [smp_client_done bp S k p hge]; rfl,
      hnext, by rw [h3]; rfl⟩

/-- Witness of C9: the last round of `srv_basic_req_1`, where the label `next` is
reached with the counter equal to the length of the script. -/
theorem out_of_range_unreachable_witness :
    2 ≤ srv_basic_req_1.length ∧
    (smp_server (fun _ => 0) srv_basic_req_1 2 (message smp_random_req_1)).isSome = true ∧
    (smp_client (fun _ => 0) srv_basic_req_1 2 (message smp_random_req_1)).isSome = true ∧
    (smp_client_next (fun _ => 0) srv_basic_req_1 (2 + 1)).isSome = true ∧
    (smp_client_new_conn (fun _ => 0) srv_basic_req_1 2).isSome = true := by
  obtain ⟨h1, h2, h3, h4⟩ :=
    out_of_range_unreachable (fun _ => 0) srv_basic_req_1 2 (by decide)
      (message smp_random_req_1)
  exact ⟨by decide, h1, h2, h3 (by decide), h4⟩

/-- Outside the invariant the equality guards do not protect the lookup: from a
counter above `len(S)` the connect callback indexes past the script. -/
theorem smp_client_new_conn_past_end (bp : Nat → Nat) (S : List smp_req_rsp) :
    smp_client_new_conn bp S (S.length + 1) = none := by
  have h : S[S.length + 1]? = none := List.getElem?_eq_none (by omega)
  simp [smp_client_new_conn, h]

theorem smp_server_sent (bp : Nat → Nat) (S : List smp_req_rsp) (k : Nat) (p : Ptr)
    (o : Outcome) (ho : smp_server bp S k p = some o) (x : List Nat) (hx : x ∈ o.sent) :
    ∃ e r, S[k]? = some e ∧ e.rsp = some r ∧ x = (get_pdu bp r).read r.obj.length := by
  by_cases hlt : k < S.length
  · have hlook : S[k]? = some S[k] := List.getElem?_eq_getElem hlt
    by_cases ha : accepts S[k].req p
    · rw [smp_server_accept bp S k p _ hlook ha] at ho
      cases hr : S[k].rsp with
      | none =>
        simp only [server_reply, hr, Option.some.injEq] at ho
        subst ho
        simp at hx
      | some r =>
        simp only [server_reply, hr, Option.some.injEq] at ho
        subst ho
        simp only [List.mem_singleton] at hx
        exact ⟨S[k], r, hlook, hr, hx⟩
    · rw [smp_server_reject bp S k p _ hlook ha] at ho
      simp only [Option.some.injEq] at ho
      subst ho
      simp at hx
  · rw [smp_server_done bp S k p (by omega)] at ho
    simp only [Option.some.injEq] at ho
    subst ho
    simp at hx

theorem smp_client_next_sent (bp : Nat → Nat) (S : List smp_req_rsp) (j : Nat)
    (o : Outcome) (ho : smp_client_next bp S j = some o) (x : List Nat) (hx : x ∈ o.sent) :
    ∃ e, S[j]? = some e ∧ x = (get_pdu bp e.req).read e.req.obj.length := by
  by_cases hlt : j < S.length
  · have hlook : S[j]? = some S[j] := List.getElem?_eq_getElem hlt
    rw [smp_client_next_more bp S j _ hlook] at ho
    simp only [Option.some.injEq] at ho
    subst ho
    simp only [List.mem_singleton] at hx
    exact ⟨S[j], hlook, hx⟩
  · by_cases heq : S.length = j
    · rw [smp_client_next_last bp S j heq] at ho
      simp only [Option.some.injEq] at ho
      subst ho
      simp at hx
    · have hnone : S[j]? = none := List.getElem?_eq_none (by omega)
      simp [smp_client_next, heq, hnone] at ho

theorem smp_client_sent (bp : Nat → Nat) (S : List smp_req_rsp) (k : Nat) (p : Ptr)
    (o : Outcome) (ho : smp_client bp S k p = some o) (x : List Nat) (hx : x ∈ o.sent) :
    ∃ e, S[k + 1]? = some e ∧ x = (get_pdu bp e.req).read e.req.obj.length := by
  by_cases hlt : k < S.length
  · have hlook : S[k]? = some S[k] := List.getElem?_eq_getElem hlt
    cases hr : S[k].rsp with
    | none =>
      rw [smp_client_unchecked bp S k p _ hlook hr] at ho
      exact smp_client_next_sent bp S (k + 1) o ho x hx
    | some r =>
      by_cases ha : accepts r p
      · rw [smp_client_accept bp S k p _ r hlook hr ha] at ho
        exact smp_client_next_sent bp S (k + 1) o ho x hx
      · rw [smp_client_reject bp S k p _ r hlook hr ha] at ho
        simp only [Option.some.injEq] at ho
        subst ho
        simp at hx
  · rw [smp_client_done bp S k p (by omega)] at ho
    simp only [Option.some.injEq] at ho
    subst ho
    simp at hx

theorem smp_client_new_conn_sent (bp : Nat → Nat) (S : List smp_req_rsp) (k : Nat)
    (o : Outcome) (ho : smp_client_new_conn bp S k = some o) (x : List Nat) (hx : x ∈ o.sent) :
    ∃ e, S[k]? = some e ∧ x = (get_pdu bp e.req).read e.req.obj.length := by
  by_cases hlt : k < S.length
  · have hlook : S[k]? = some S[k] := List.getElem?_eq_getElem hlt
    rw [smp_client_new_conn_more bp S k _ hlook] at ho
    simp only [Option.some.injEq] at ho
    subst ho
    simp only [List.mem_singleton] at hx
    exact ⟨S[k], hlook, hx⟩
  · by_cases heq : S.length = k
    · rw [smp_client_new_conn_last bp S k heq] at ho
      simp only [Option.some.injEq] at ho
      subst ho
      simp at hx
    · have hnone : S[k]? = none := List.getElem?_eq_none (by omega)
      simp [smp_client_new_conn, heq, hnone] at ho

/-- C7, the claim as stated fails: `long_confirm` has 35 bytes and begins with 0x03;
`get_pdu` copies 34 of them into its buffer, and the 35 bytes read at the returned
pointer end in the byte that follows the buffer (here 0), not in the 0x01 of the
payload. -/
theorem get_pdu_verbatim_refuted :
    long_confirm.length = 35 ∧
    (get_pdu (fun _ => 0) (static_array long_confirm)).read long_confirm.length
      = 0x03 :: List.replicate 34 0 ∧
    (get_pdu (fun _ => 0) (static_array long_confirm)).read long_confirm.length
      ≠ long_confirm := by
  decide

/-- C7 as amended: the bytes that `bthost_send_cid` reads at `get_pdu(payload)` over the
length of the payload are the payload itself whenever the payload does not begin
with 0x03 or 0x04, or is at most 34 bytes long (the size of the buffer of
`get_pdu`); and so is every payload that `smp_server` (a response),
`smp_client` (the next request) and `smp_client_new_conn` (the current request)
send, when the script payload in question is of that kind. -/
theorem get_pdu_verbatim (bp : Nat → Nat) :
    (∀ payload : Ptr, fits_buf payload →
      (get_pdu bp payload).read payload.obj.length = payload.obj) ∧
    (∀ (S : List smp_req_rsp) (k : Nat) (p : Ptr) (o : Outcome) (x : List Nat),
      smp_server bp S k p = some o → x ∈ o.sent →
      ∃ e r, S[k]? = some e ∧ e.rsp = some r ∧ (fits_buf r → x = r.obj)) ∧
    (∀ (S : List smp_req_rsp) (k : Nat) (p : Ptr) (o : Outcome) (x : List Nat),
      smp_client bp S k p = some o → x ∈ o.sent →
      ∃ e, S[k + 1]? = some e ∧ (fits_buf e.req → x = e.req.obj)) ∧
    (∀ (S : List smp_req_rsp) (k : Nat) (o : Outcome) (x : List Nat),
      smp_client_new_conn bp S k = some o → x ∈ o.sent →
      ∃ e, S[k]? = some e ∧ (fits_buf e.req → x = e.req.obj)) := by
  refine ⟨fun payload h => get_pdu_read_self bp payload h, ?_, ?_, ?_⟩
  · intro S k p o x ho hx
    obtain ⟨e, r, he, hr, hxr⟩ := smp_server_sent bp S k p o ho x hx
    exact ⟨e, r, he, hr, fun hf => by rw [hxr, get_pdu_read_self bp r hf]⟩
  · intro S k p o x ho hx
    obtain ⟨e, he, hxr⟩ := smp_client_sent bp S k p o ho x hx
    exact ⟨e, he, fun hf => by rw [hxr, get_pdu_read_self bp e.req hf]⟩
  · intro S k o x ho hx
    obtain ⟨e, he, hxr⟩ := smp_client_new_conn_sent bp S k o ho x hx
    exact ⟨e, he, fun hf => by rw [hxr, get_pdu_read_self bp e.req hf]⟩

/-- Witness of C7 as amended: `smp_confirm_req_1` (17 bytes, opcode 0x03) goes through
the buffer and comes out unchanged, also as the response of `cli_basic_req_1`. -/
theorem get_pdu_verbatim_witness :
    fits_buf (static_array smp_confirm_req_1) ∧
    (get_pdu (fun _ => 0xee) (static_array smp_confirm_req_1)).read
      (static_array smp_confirm_req_1).obj.length = smp_confirm_req_1 ∧
    (∃ e r, cli_basic_req_1[1]? = some e ∧ e.rsp = some r ∧
      (fits_buf r → smp_confirm_req_1 = r.obj)) :=
  ⟨by decide,
    (get_pdu_verbatim (fun _ => 0xee)).1 (static_array smp_confirm_req_1) (by decide),
    (get_pdu_verbatim (fun _ => 0xee)).2.1 cli_basic_req_1 1 (message smp_confirm_req_1)
      ⟨2, [smp_confirm_req_1], some Verdict.Passed⟩ smp_confirm_req_1 (by decide) (by decide)⟩

/-- C10, the claim as stated fails: the first round of `silent_then_long_script`
expects no reply, and on any inbound message `smp_client` goes on to send the next
request through `get_pdu`; that request is `long_confirm`, and the 35 bytes sent
are not the stored request. -/
theorem smp_client_unvalidated_refuted :
    (silent_then_long_script.get ⟨0, by decide⟩).rsp.isNone = true ∧
    0 + 1 ≠ silent_then_long_script.length ∧
    (silent_then_long_script.get ⟨1, by decide⟩).req.obj = long_confirm ∧
    smp_client (fun _ => 0) silent_then_long_script 0 (message [0x05, 0x07])
      = some ⟨1, [0x03 :: List.replicate 34 0], none⟩ ∧
    smp_client (fun _ => 0) silent_then_long_script 0 (message [0x05, 0x07])
      ≠ some ⟨1, [long_confirm], none⟩ := by
  decide

/-- C10 as amended: in a round `k` of `smp_client` whose entry has no response the
outcome is the same for every inbound message; it is never Failed and leaves the
counter `k + 1`; it is Passed with nothing sent if `k + 1 = len(S)`; otherwise it is
one transmission and no verdict, of as many bytes as the request of entry `k + 1`
has, and these are exactly that request when it does not begin with 0x03 or 0x04 or
is at most 34 bytes long. -/
theorem smp_client_unvalidated (bp : Nat → Nat) (S : List smp_req_rsp) (k : Nat)
    (hk : k < S.length) (hr : S[k].rsp = none) (p : Ptr) :
    (∀ q : Ptr, smp_client bp S k q = smp_client bp S k p) ∧
    (∃ o : Outcome, smp_client bp S k p = some o ∧ o.counter = k + 1 ∧
      o.verdict ≠ some Verdict.Failed) ∧
    (k + 1 = S.length → smp_client bp S k p = some ⟨k + 1, [], some Verdict.Passed⟩) ∧
    (∀ h : k + 1 < S.length,
      (∃ x : List Nat, smp_client bp S k p = some ⟨k + 1, [x], none⟩ ∧
        x.length = S[k + 1].req.obj.length) ∧
      (fits_buf S[k + 1].req →
        smp_client bp S k p = some ⟨k + 1, [S[k + 1].req.obj], none⟩)) := by
  have hlook : S[k]? = some S[k] := List.getElem?_eq_getElem hk
  have hp : ∀ q : Ptr, smp_client bp S k q = smp_client_next bp S (k + 1) :=
    fun q => smp_client_unchecked bp S k q _ hlook hr
  refine ⟨fun q => by rw [hp q, hp p], ?_, ?_, ?_⟩
  · obtain ⟨o, ho, hc, hv⟩ := smp_client_next_counter bp S (k + 1) hk
    exact ⟨o, by rw [hp p, ho], hc, hv⟩
  · intro hlast
    rw [hp p]
    exact smp_client_next_last bp S (k + 1) hlast.symm
  · intro h
    have hnext : S[k + 1]? = some S[k + 1] := List.getElem?_eq_getElem h
    constructor
    · exact ⟨_, by rw [hp p]; exact smp_client_next_more bp S (k + 1) _ hnext,
        Ptr.read_length _ _⟩
    · intro hf
      rw [hp p, smp_client_next_more bp S (k + 1) _ hnext, get_pdu_read_self bp _ hf]

/-- Witness of C10: the last entry of `srv_basic_req_1` has no response; an empty
message and a 17-byte message get the same outcome, Passed. -/
theorem smp_client_unvalidated_witness :
    2 < srv_basic_req_1.length ∧
    (srv_basic_req_1.get ⟨2, by decide⟩).rsp = none ∧
    smp_client (fun _ => 0) srv_basic_req_1 2 (message smp_random_req_1)
      = smp_client (fun _ => 0) srv_basic_req_1 2 (message []) ∧
    smp_client (fun _ => 0) srv_basic_req_1 2 (message [])
      = some ⟨2 + 1, [], some Verdict.Passed⟩ :=
  ⟨by decide, rfl,
    (smp_client_unvalidated (fun _ => 0) srv_basic_req_1 2 (by decide) rfl
      (message [])).1 (message smp_random_req_1),
    (smp_client_unvalidated (fun _ => 0) srv_basic_req_1 2 (by decide) rfl
      (message [])).2.2.1 (by decide)⟩

theorem feed_cons (h : Nat → Ptr → Option Outcome) (k : Nat) (m : Ptr) (ms : List Ptr)
    (o : Outcome) (os : List Outcome) (ho : h k m = some o)
    (hos : feed h o.counter ms = some os) : feed h k (m :: ms) = some (o :: os) := by
  simp [feed, ho, hos]

theorem transmissions_cons (o : Outcome) (os : List Outcome) :
    transmissions (o :: os) = o.sent ++ transmissions os := by
  simp [transmissions]

theorem server_reply_sent (bp : Nat → Nat) (S : List smp_req_rsp) (k : Nat) (e : smp_req_rsp) :
    (server_reply bp S k e).sent
      = (e.rsp.map (fun r => (get_pdu bp r).read r.obj.length)).toList := by
  unfold server_reply
  cases e.rsp <;> rfl

theorem server_reply_last (bp : Nat → Nat) (S : List smp_req_rsp) (k : Nat) (e : smp_req_rsp)
    (hk : S.length ≤ k + 1) : (server_reply bp S k e).verdict = some Verdict.Passed := by
  unfold server_reply
  cases e.rsp with
  | none => rfl
  | some r =>
    have : ¬ S.length > k + 1 := by omega
    simp [this]

/-- A run of `smp_server` from counter `k` over the requests of the entries from `k`
on: what is sent, and which verdicts are reported. -/
theorem responder_run (bp : Nat → Nat) (S : List smp_req_rsp) :
    ∀ (msgs : List Ptr) (k : Nat),
      msgs.map Ptr.obj = (S.drop k).map (fun e => e.req.obj) →
      ∃ os : List Outcome, feed (smp_server bp S) k msgs = some os ∧
        os.length = msgs.length ∧
        transmissions os = (S.drop k).filterMap
          (fun e => e.rsp.map (fun r => (get_pdu bp r).read r.obj.length)) ∧
        (∀ o ∈ os, o.verdict ≠ some Verdict.Failed) ∧
        (∀ o, os.getLast? = some o → o.verdict = some Verdict.Passed) := by
  intro msgs
  induction msgs with
  | nil =>
    intro k h
    have hd : S.drop k = [] := by
      have := h.symm
      simpa using this
    refine ⟨[], rfl, rfl, ?_, ?_, ?_⟩
    · simp [transmissions, hd]
    · intro o ho
      simp at ho
    · intro o ho
      simp at ho
  | cons m ms ih =>
    intro k h
    have hlt : k < S.length := by
      by_contra hge
      rw [List.drop_eq_nil_of_le (by omega)] at h
      simp at h
    have hd : S.drop k = S[k] :: S.drop (k + 1) := List.drop_eq_getElem_cons hlt
    rw [hd] at h
    simp only [List.map_cons, List.cons.injEq] at h
    obtain ⟨hm, hms⟩ := h
    have hlook : S[k]? = some S[k] := List.getElem?_eq_getElem hlt
    have hstep := smp_server_accept bp S k m _ hlook (accepts_of_same_bytes _ _ hm)
    obtain ⟨os, hos, hlen, htr, hnf, hlast⟩ := ih (k + 1) hms
    refine ⟨server_reply bp S k S[k] :: os, ?_, ?_, ?_, ?_, ?_⟩
    · exact feed_cons _ k m ms _ os hstep (by rw [server_reply_counter]; exact hos)
    · simp [hlen]
    · rw [transmissions_cons, htr, server_reply_sent, hd, List.filterMap_cons]
      cases hr : S[k].rsp with
      | none => rfl
      | some r => rfl
    · intro o ho
      rcases List.mem_cons.mp ho with h1 | h1
      · rw [h1]
        exact server_reply_verdict bp S k _
      · exact hnf o h1
    · intro o ho
      cases os with
      | nil =>
        simp only [List.getLast?_singleton, Option.some.injEq] at ho
        have hms0 : ms = [] := List.length_eq_zero.mp hlen.symm
        rw [hms0] at hms
        have hd : S.drop (k + 1) = [] := by
          have := hms.symm
          simpa using this
        have hle : S.length ≤ k + 1 := List.drop_eq_nil_iff.mp hd
        rw [← ho]
        exact server_reply_last bp S k _ hle
      | cons o1 os1 =>
        rw [List.getLast?_cons_cons] at ho
        exact hlast o ho

/-- C1, the claim as stated fails: `long_rsp_script` has one entry, whose response is
`long_confirm`; fed the request of that entry, `smp_server` reports Passed, but the 35
bytes it sends are not the stored response. -/
theorem responder_end_to_end_refuted :
    long_rsp_script ≠ [] ∧
    [message smp_nval_req_1].map Ptr.obj = long_rsp_script.map (fun e => e.req.obj) ∧
    feed (smp_server (fun _ => 0) long_rsp_script) 0 [message smp_nval_req_1]
      = some [⟨1, [0x03 :: List.replicate 34 0], some Verdict.Passed⟩] ∧
    [0x03 :: List.replicate 34 0]
      ≠ long_rsp_script.filterMap (fun e => e.rsp.map Ptr.obj) := by
  refine ⟨?_, ?_, ?_, ?_⟩
  · simp [long_rsp_script]
  · decide
  · decide
  · decide

/-- C1 as amended: for every non-empty script whose responses that begin with 0x03 or
0x04 are at most 34 bytes long, `smp_server` started at counter 0 and fed, in order,
messages whose bytes are the requests of the script sends exactly the responses that
are present, in script order, never reports Failed, and reports Passed in the last
call. -/
theorem responder_end_to_end (bp : Nat → Nat) (S : List smp_req_rsp) (msgs : List Ptr)
    (hne : S ≠ [])
    (hfit : ∀ e ∈ S, ∀ r, e.rsp = some r → fits_buf r)
    (hmsgs : msgs.map Ptr.obj = S.map (fun e => e.req.obj)) :
    ∃ os : List Outcome, feed (smp_server bp S) 0 msgs = some os ∧
      os.length = S.length ∧
      transmissions os = S.filterMap (fun e => e.rsp.map Ptr.obj) ∧
      Verdict.Failed ∉ reports os ∧
      os.getLast?.bind Outcome.verdict = some Verdict.Passed := by
  obtain ⟨os, hos, hlen, htr, hnf, hlast⟩ := responder_run bp S msgs 0 (by simpa using hmsgs)
  have hml : msgs.length = S.length := by
    have := congrArg List.length hmsgs
    simpa using this
  refine ⟨os, hos, by rw [hlen, hml], ?_, ?_, ?_⟩
  · rw [htr, List.drop_zero]
    apply List.filterMap_congr
    intro e he
    cases hr : e.rsp with
    | none => rfl
    | some r =>
      simp only [Option.map_some']
      rw [get_pdu_read_self bp r (hfit e he r hr)]
  · intro hmem
    obtain ⟨o, ho, hv⟩ := List.mem_filterMap.mp hmem
    exact hnf o ho hv
  · cases hl : os.getLast? with
    | none =>
      rw [List.getLast?_eq_none_iff] at hl
      rw [hl] at hlen
      have : S.length = 0 := by rw [← hml, ← hlen]; rfl
      exact absurd (List.length_eq_zero.mp this) hne
    | some o => exact hlast o hl

/-- Witness of C1 as amended: `cli_basic_req_1` played by the responder. -/
theorem responder_end_to_end_witness :
    cli_basic_req_1 ≠ [] ∧
    (∃ os : List Outcome,
      feed (smp_server (fun _ => 0xee) cli_basic_req_1) 0
          [message smp_basic_req_1, message smp_confirm_req_1] = some os ∧
      os.length = cli_basic_req_1.length ∧
      transmissions os = cli_basic_req_1.filterMap (fun e => e.rsp.map Ptr.obj) ∧
      Verdict.Failed ∉ reports os ∧
      os.getLast?.bind Outcome.verdict = some Verdict.Passed) :=
  ⟨by simp [cli_basic_req_1],
    responder_end_to_end (fun _ => 0xee) cli_basic_req_1
      [message smp_basic_req_1, message smp_confirm_req_1]
      (by simp [cli_basic_req_1])
      (by
        intro e he r hr
        simp only [cli_basic_req_1, List.mem_cons, List.mem_singleton, List.not_mem_nil,
          or_false] at he
        rcases he with he | he
        · subst he
          cases hr
          decide
        · subst he
          cases hr
          decide)
      (by decide)⟩

/-- A run of `smp_client` from counter `k` over the responses of the entries from `k`
on: call `i` of the run leaves the counter `k + i + 1` and sends the next request
through `get_pdu`, or reports Passed when there is no next entry. -/
theorem initiator_run (bp : Nat → Nat) (S : List smp_req_rsp) :
    ∀ (msgs : List Ptr) (k : Nat),
      msgs.map (fun m => some m.obj) = (S.drop k).map (fun e => e.rsp.map Ptr.obj) →
      ∃ os : List Outcome, feed (smp_client bp S) k msgs = some os ∧
        os.length = msgs.length ∧
        ∀ i, i < msgs.length → ∃ o, smp_client_next bp S (k + i + 1) = some o ∧
          o.counter = k + i + 1 ∧ os[i]? = some o := by
  intro msgs
  induction msgs with
  | nil =>
    intro k _
    exact ⟨[], rfl, rfl, fun i hi => absurd hi (Nat.not_lt_zero i)⟩
  | cons m ms ih =>
    intro k h
    have hlt : k < S.length := by
      by_contra hge
      rw [List.drop_eq_nil_of_le (by omega)] at h
      simp at h
    have hd : S.drop k = S[k] :: S.drop (k + 1) := List.drop_eq_getElem_cons hlt
    rw [hd] at h
    simp only [List.map_cons, List.cons.injEq] at h
    obtain ⟨hm, hms⟩ := h
    have hlook : S[k]? = some S[k] := List.getElem?_eq_getElem hlt
    obtain ⟨r, hr, hro⟩ : ∃ r, S[k].rsp = some r ∧ r.obj = m.obj := by
      cases hr : S[k].rsp with
      | none => simp [hr] at hm
      | some r =>
        simp only [hr, Option.map_some', Option.some.injEq] at hm
        exact ⟨r, rfl, hm.symm⟩
    have hstep := smp_client_accept bp S k m _ r hlook hr (accepts_of_same_bytes _ _ hro.symm)
    obtain ⟨o, ho, hc, _⟩ := smp_client_next_counter bp S (k + 1) hlt
    obtain ⟨os, hos, hlen, hix⟩ := ih (k + 1) hms
    refine ⟨o :: os, ?_, ?_, ?_⟩
    · exact feed_cons _ k m ms o os (by rw [hstep, ho]) (by rw [hc]; exact hos)
    · simp [hlen]
    · intro i hi
      cases i with
      | zero => exact ⟨o, ho, hc, by simp⟩
      | succ j =>
        have hj : j < ms.length := by simpa using hi
        obtain ⟨o1, ho1, hc1, hix1⟩ := hix j hj
        have hidx : k + (j + 1) + 1 = k + 1 + j + 1 := by omega
        refine ⟨o1, by rw [hidx]; exact ho1, by rw [hidx]; exact hc1, ?_⟩
        rw [List.getElem?_cons_succ]
        exact hix1

/-- C2, the claim as stated fails: the only request of `long_req_script` is
`long_confirm` and its response is present, but the 35 bytes that
`smp_client_new_conn` sends on connect are not the stored request. -/
theorem initiator_end_to_end_refuted :
    long_req_script ≠ [] ∧
    (∀ e ∈ long_req_script, e.rsp.isSome = true) ∧
    (long_req_script.get ⟨0, by decide⟩).req.obj = long_confirm ∧
    smp_client_new_conn (fun _ => 0) long_req_script 0
      = some ⟨0, [0x03 :: List.replicate 34 0], none⟩ ∧
    smp_client_new_conn (fun _ => 0) long_req_script 0
      ≠ some ⟨0, [long_confirm], none⟩ := by
  refine ⟨?_, ?_, ?_, ?_, ?_⟩
  · simp [long_req_script]
  · decide
  · decide
  · decide
  · decide

/-- C2 as amended: for every non-empty script whose entries all have a response and
whose requests that begin with 0x03 or 0x04 are at most 34 bytes long,
`smp_client_new_conn` at counter 0 sends the first request and reports nothing, and
`smp_client`, then fed in order messages whose bytes are the responses of the script,
in call `i` leaves the counter `i + 1` and, if entry `i + 1` exists, sends exactly its
request and reports nothing; in the last call it sends nothing and reports Passed. -/
theorem initiator_end_to_end (bp : Nat → Nat) (S : List smp_req_rsp) (msgs : List Ptr)
    (hne : S ≠ [])
    (hfit : ∀ e ∈ S, fits_buf e.req)
    (hmsgs : msgs.map (fun m => some m.obj) = S.map (fun e => e.rsp.map Ptr.obj)) :
    (∃ e, S[0]? = some e ∧ smp_client_new_conn bp S 0 = some ⟨0, [e.req.obj], none⟩) ∧
    ∃ os : List Outcome, feed (smp_client bp S) 0 msgs = some os ∧
      os.length = S.length ∧
      ∀ i (_ : i < S.length),
        (∀ h1 : i + 1 < S.length, os[i]? = some ⟨i + 1, [S[i + 1].req.obj], none⟩) ∧
        (i + 1 = S.length → os[i]? = some ⟨i + 1, [], some Verdict.Passed⟩) := by
  have hml : msgs.length = S.length := by
    have := congrArg List.length hmsgs
    simpa using this
  have hpos : 0 < S.length := List.length_pos.mpr hne
  constructor
  · have hlook : S[0]? = some S[0] := List.getElem?_eq_getElem hpos
    refine ⟨S[0], hlook, ?_⟩
    rw [smp_client_new_conn_more bp S 0 _ hlook,
      get_pdu_read_self bp _ (hfit _ (List.getElem_mem _))]
  · obtain ⟨os, hos, hlen, hix⟩ := initiator_run bp S msgs 0 (by simpa using hmsgs)
    refine ⟨os, hos, by rw [hlen, hml], ?_⟩
    intro i hi
    obtain ⟨o, ho, _, hoi⟩ := hix i (by rw [hml]; exact hi)
    rw [Nat.zero_add] at ho
    constructor
    · intro h1
      have hlook : S[i + 1]? = some S[i + 1] := List.getElem?_eq_getElem h1
      rw [smp_client_next_more bp S (i + 1) _ hlook,
        get_pdu_read_self bp _ (hfit _ (List.getElem_mem _))] at ho
      rw [hoi, ← ho]
    · intro h1
      rw [smp_client_next_last bp S (i + 1) h1.symm] at ho
      rw [hoi, ← ho]

/-- Witness of C2: `cli_basic_req_1` played by the initiator: the Pairing Request goes
out on connect, the Pairing Confirm after the first response, and the second response
ends the run with Passed. -/
theorem initiator_end_to_end_witness :
    cli_basic_req_1 ≠ [] ∧
    smp_client_new_conn (fun _ => 0xee) cli_basic_req_1 0
      = some ⟨0, [smp_basic_req_1], none⟩ ∧
    (∃ os : List Outcome,
      feed (smp_client (fun _ => 0xee) cli_basic_req_1) 0
          [message smp_basic_req_1_rsp, message smp_confirm_req_1]
        = some os ∧
      os.length = cli_basic_req_1.length ∧
      os[0]? = some ⟨1, [smp_confirm_req_1], none⟩ ∧
      os[1]? = some ⟨2, [], some Verdict.Passed⟩) := by
  have h := initiator_end_to_end (fun _ => 0xee) cli_basic_req_1
      [message smp_basic_req_1_rsp, message smp_confirm_req_1]
      (by simp [cli_basic_req_1])
      (by
        intro e he
        simp only [cli_basic_req_1, List.mem_cons, List.mem_singleton, List.not_mem_nil,
          or_false] at he
        rcases he with he | he
        · subst he
          decide
        · subst he
          decide)
      (by decide)
  obtain ⟨⟨e, he, hconn⟩, os, hos, hlen, hix⟩ := h
  refine ⟨by simp [cli_basic_req_1], ?_, os, hos, hlen, ?_, ?_⟩
  · have he0 : e = cli_basic_req_1.get ⟨0, by decide⟩ := by
      have h0 : cli_basic_req_1[0]? = some (cli_basic_req_1.get ⟨0, by decide⟩) := rfl
      rw [h0] at he
      exact (Option.some.inj he).symm
    rw [hconn, he0]
    rfl
  · exact (hix 0 (by decide)).1 (by decide)
  · exact (hix 1 (by decide)).2 (by decide)

/-- A handler that, at counter `k`, answers every message by Passed, sends nothing and
leaves the counter at `k`, does so over any run from `k`. -/
theorem feed_fixed (h : Nat → Ptr → Option Outcome) (k : Nat)
    (hfix : ∀ q : Ptr, h k q = some ⟨k, [], some Verdict.Passed⟩) :
    ∀ qs : List Ptr,
      feed h k qs = some (List.replicate qs.length ⟨k, [], some Verdict.Passed⟩) := by
  intro qs
  induction qs with
  | nil => rfl
  | cons q qs ih => exact feed_cons h k q qs _ _ (hfix q) ih

theorem smp_client_passed_exhausted (bp : Nat → Nat) (S : List smp_req_rsp) (k : Nat) (p : Ptr)
    (o : Outcome) (ho : smp_client bp S k p = some o)
    (hv : o.verdict = some Verdict.Passed) : S.length ≤ o.counter := by
  by_cases hlt : k < S.length
  · have hlook : S[k]? = some S[k] := List.getElem?_eq_getElem hlt
    have hnext : smp_client_next bp S (k + 1) = some o → S.length ≤ o.counter := by
      intro hn
      by_cases hlast : S.length = k + 1
      · rw [smp_client_next_last bp S (k + 1) hlast] at hn
        simp only [Option.some.injEq] at hn
        subst hn
        exact Nat.le_of_eq hlast
      · have h1 : k + 1 < S.length := by omega
        rw [smp_client_next_more bp S (k + 1) _ (List.getElem?_eq_getElem h1)] at hn
        simp only [Option.some.injEq] at hn
        subst hn
        simp at hv
    cases hr : S[k].rsp with
    | none =>
      rw [smp_client_unchecked bp S k p _ hlook hr] at ho
      exact hnext ho
    | some r =>
      by_cases ha : accepts r p
      · rw [smp_client_accept bp S k p _ r hlook hr ha] at ho
        exact hnext ho
      · rw [smp_client_reject bp S k p _ r hlook hr ha] at ho
        simp only [Option.some.injEq] at ho
        subst ho
        simp at hv
  · rw [smp_client_done bp S k p (by omega)] at ho
    simp only [Option.some.injEq] at ho
    subst ho
    exact Nat.le_of_not_lt hlt

theorem smp_server_passed_exhausted (bp : Nat → Nat) (S : List smp_req_rsp) (k : Nat) (p : Ptr)
    (o : Outcome) (ho : smp_server bp S k p = some o)
    (hv : o.verdict = some Verdict.Passed)
    (hlast : S.length ≤ k + 1 ∨ ∃ e r, S[k]? = some e ∧ e.rsp = some r) :
    S.length ≤ o.counter := by
  by_cases hlt : k < S.length
  · have hlook : S[k]? = some S[k] := List.getElem?_eq_getElem hlt
    by_cases ha : accepts S[k].req p
    · rw [smp_server_accept bp S k p _ hlook ha] at ho
      simp only [Option.some.injEq] at ho
      subst ho
      rw [server_reply_counter]
      rcases hlast with h | ⟨e, r, he, hr⟩
      · exact h
      · rw [hlook] at he
        simp only [Option.some.injEq] at he
        subst he
        by_cases hgt : S.length > k + 1
        · simp [server_reply, hr, hgt] at hv
        · omega
    · rw [smp_server_reject bp S k p _ hlook ha] at ho
      simp only [Option.some.injEq] at ho
      subst ho
      simp at hv
  · rw [smp_server_done bp S k p (by omega)] at ho
    simp only [Option.some.injEq] at ho
    subst ho
    exact Nat.le_of_not_lt hlt

/-- C3, the claim as stated fails, for both handlers.  `smp_server` on
`cli_basic_req_1`: a wrong first request is answered by Failed, and the next message
is still checked against the second entry, answered with a transmission and Passed.
`smp_client` on `srv_basic_req_1`: a wrong first response is answered by Failed, and
the next message still makes it send the third request.  `smp_client` on
`nval_req_1`: a wrong response is answered by Failed, and the next message by Passed. -/
theorem terminal_absorbing_refuted :
    feed (smp_server (fun _ => 0) cli_basic_req_1) 0
        [message [0x01, 0x03, 0x00, 0x01, 0x10, 0x00, 0x02],
         message smp_confirm_req_1]
      = some [⟨1, [], some Verdict.Failed⟩,
              ⟨2, [smp_confirm_req_1], some Verdict.Passed⟩] ∧
    feed (smp_client (fun _ => 0) srv_basic_req_1) 0
        [message [0x05, 0x08], message smp_confirm_req_1]
      = some [⟨1, [], some Verdict.Failed⟩, ⟨2, [smp_random_req_1], none⟩] ∧
    feed (smp_client (fun _ => 0) nval_req_1) 0
        [message [0x05, 0x08], message [0x05, 0x08]]
      = some [⟨1, [], some Verdict.Failed⟩, ⟨1, [], some Verdict.Passed⟩] := by
  decide

/-- C3 as amended: what is absorbing is the exhausted script.  For either handler, from
a counter `k` with `len(S) ≤ k` every further message, whatever its bytes, is answered
by Passed, with nothing sent and the counter left at `k`, over any number of messages.
Every Passed that `smp_client` reports, and every Passed that `smp_server` reports on
the last entry or on an entry that has a response, leaves such a counter. -/
theorem exhausted_absorbing (bp : Nat → Nat) (S : List smp_req_rsp) :
    (∀ (k : Nat) (qs : List Ptr), S.length ≤ k →
      feed (smp_server bp S) k qs
        = some (List.replicate qs.length ⟨k, [], some Verdict.Passed⟩) ∧
      feed (smp_client bp S) k qs
        = some (List.replicate qs.length ⟨k, [], some Verdict.Passed⟩)) ∧
    (∀ (k : Nat) (p : Ptr) (o : Outcome), smp_client bp S k p = some o →
      o.verdict = some Verdict.Passed → S.length ≤ o.counter) ∧
    (∀ (k : Nat) (p : Ptr) (o : Outcome), smp_server bp S k p = some o →
      o.verdict = some Verdict.Passed →
      (S.length ≤ k + 1 ∨ ∃ e r, S[k]? = some e ∧ e.rsp = some r) →
      S.length ≤ o.counter) := by
  refine ⟨?_, ?_, ?_⟩
  · intro k qs hk
    exact ⟨feed_fixed _ k (fun q => smp_server_done bp S k q hk) qs,
      feed_fixed _ k (fun q => smp_client_done bp S k q hk) qs⟩
  · exact fun k p o ho hv => smp_client_passed_exhausted bp S k p o ho hv
  · exact fun k p o ho hv hl => smp_server_passed_exhausted bp S k p o ho hv hl

/-- Witness of C3 as amended: `cli_basic_req_1` at counter 2, and the Passed that
`smp_client` reports on its last entry. -/
theorem exhausted_absorbing_witness :
    cli_basic_req_1.length ≤ 2 ∧
    feed (smp_server (fun _ => 0) cli_basic_req_1) 2
        [message [0x01], message smp_basic_req_1, message []]
      = some (List.replicate 3 ⟨2, [], some Verdict.Passed⟩) ∧
    smp_client (fun _ => 0) cli_basic_req_1 1 (message smp_confirm_req_1)
      = some ⟨2, [], some Verdict.Passed⟩ ∧
    cli_basic_req_1.length ≤ 2 :=
  ⟨by decide,
    ((exhausted_absorbing (fun _ => 0) cli_basic_req_1).1 2
      [message [0x01], message smp_basic_req_1, message []] (by decide)).1,
    by decide,
    (exhausted_absorbing (fun _ => 0) cli_basic_req_1).2.1 1 (message smp_confirm_req_1)
      ⟨2, [], some Verdict.Passed⟩ (by decide) rfl⟩

end SmpTester
